import Mathlib

/-! Verification of the spotify-elo-ranker core against its specification.

The development shallowly embeds the two source files:

* `elo.py` — the Elo rating model (`get_expected_score`, `get_k_factor`,
  `calculate_new_ratings`).  Python floats are modelled as real numbers,
  `10 ** x` as `Real.rpow` — with a separate fallible embedding making
  CPython's float-pow `OverflowError` explicit — and `round(x, 2)` as
  rounding `100 * x` to the nearest integer and dividing back.
* `app.py` — the item database (a Python dict from track URI to a song
  record, modelled as an association list preserving insertion order), the
  matchmaking block of the `/rank` GET handler, the vote-application block
  of the `/rank` POST handler, the `/ingest` handler and `get_db_path`.
  The random source (`random.choice`, `random.sample`) is modelled by
  explicit natural-number draws, universally quantified in the theorems,
  so that a statement holds "for every choice of the random source".
-/

/-! Embedded definitions, translated from `elo.py` and `app.py`. -/

/-- Source `elo.py` line 5: probability of A winning against B. -/
noncomputable def get_expected_score (rating_a rating_b : ℝ) : ℝ :=
  1 / (1 + (10 : ℝ) ^ ((rating_b - rating_a) / 400))

/-- Source `elo.py` lines 8-14: higher K-factor for placement matches (< 5). -/
def get_k_factor (matches_played : ℕ) : ℕ :=
  if matches_played < 5 then 64 else 32

/-- Python's `round(x, 2)`: round to 2 decimal places. -/
noncomputable def round2 (x : ℝ) : ℝ :=
  ((round (100 * x) : ℤ) : ℝ) / 100

/-- Source `elo.py` lines 17-35: updated ratings for both players. -/
noncomputable def calculate_new_ratings (rating_a rating_b actual_score_a : ℝ)
    (matches_a matches_b : ℕ) : ℝ × ℝ :=
  let expected_a := get_expected_score rating_a rating_b
  let expected_b := 1 - expected_a
  let k_a : ℝ := (get_k_factor matches_a : ℝ)
  let k_b : ℝ := (get_k_factor matches_b : ℝ)
  let new_rating_a := rating_a + k_a * (actual_score_a - expected_a)
  let actual_score_b := 1 - actual_score_a
  let new_rating_b := rating_b + k_b * (actual_score_b - expected_b)
  (round2 new_rating_a, round2 new_rating_b)

/-- Largest finite IEEE-754 double, exactly `2^1024 - 2^971` (`DBL_MAX`,
about `1.798e308`): the bound above which CPython's float power raises
`OverflowError`. -/
noncomputable def maxFloat : ℝ :=
  2 ^ (1024 : ℕ) - 2 ^ (971 : ℕ)

/-- Python's float `10 ** x` with its error path explicit: CPython raises
`OverflowError` (modelled as `none`) when the mathematical result exceeds
the largest finite double; otherwise the value is returned (the rounding
of in-range results is not modelled). -/
noncomputable def pow10_float (x : ℝ) : Option ℝ :=
  if maxFloat < (10 : ℝ) ^ x then none else some ((10 : ℝ) ^ x)

/-- Function `get_expected_score` with its fallible operations explicit:
the float power of `elo.py` line 5 can raise `OverflowError`, and the
division would fail on a zero denominator. -/
noncomputable def get_expected_score_checked (rating_a rating_b : ℝ) : Option ℝ :=
  match pow10_float ((rating_b - rating_a) / 400) with
  | none => none
  | some p => if (1 + p) = 0 then none else some (1 / (1 + p))

/-- Function `calculate_new_ratings` threaded through the fallible
expected-score computation: `none` signals a raised exception. -/
noncomputable def calculate_new_ratings_checked (rating_a rating_b actual_score_a : ℝ)
    (matches_a matches_b : ℕ) : Option (ℝ × ℝ) :=
  (get_expected_score_checked rating_a rating_b).map fun expected_a =>
    let expected_b := 1 - expected_a
    let k_a : ℝ := (get_k_factor matches_a : ℝ)
    let k_b : ℝ := (get_k_factor matches_b : ℝ)
    let new_rating_a := rating_a + k_a * (actual_score_a - expected_a)
    let actual_score_b := 1 - actual_score_a
    let new_rating_b := rating_b + k_b * (actual_score_b - expected_b)
    (round2 new_rating_a, round2 new_rating_b)

structure Item where
  name : String
  artist : String
  image : String
  rating : ℝ
  /-- The source field `matches` (a Lean keyword, hence the spec's name). -/
  matchCount : ℕ

instance : Inhabited Item := ⟨⟨ "", "", "", 0, 0⟩⟩

abbrev DB := List (String × Item)

/-- Source `app.py` line 288: `list(db.keys())`. -/
def uris (db : DB) : List String := db.map Prod.fst

/-- Lookup `db[u]`: first entry with the given key (unique for an actual dict). -/
def dbGet (db : DB) (u : String) : Item :=
  ((db.find? fun e => decide (e.1 = u)).getD ⟨ "", default⟩).2

/-- Model of `random.choice(l)`: the draw `r` selects the element at index
`r % l.length`; quantifying over `r` ranges over exactly the support of
the uniform choice (for nonempty `l`). -/
def randChoice (l : List String) (r : ℕ) : String :=
  l.getD (r % l.length) ""

/-- Model of `random.sample(l, 2)`: the first draw selects a position, the second
draws from the list with that position removed, covering exactly the
ordered pairs of distinct positions. -/
def randSample2 (l : List String) (r1 r2 : ℕ) : String × String :=
  (l.getD (r1 % l.length) "", randChoice (l.eraseIdx (r1 % l.length)) r2)

/-- Source `app.py` line 320: `[u for u in uris if db[u]['matches'] == 0]`. -/
def zeroList (db : DB) : List String :=
  (uris db).filter fun u => decide ((dbGet db u).matchCount = 0)

/-- Source `app.py` line 321: `[u for u in uris if db[u]['matches'] < 5]`. -/
def calibList (db : DB) : List String :=
  (uris db).filter fun u => decide ((dbGet db u).matchCount < 5)

/-- Source `app.py` lines 327 and 337: `[u for u in uris if u != id_a]`. -/
def othersList (db : DB) (a : String) : List String :=
  (uris db).filter fun u => decide (u ≠ a)

/-- Source `app.py` line 333:
`[u for u in uris if u != id_a and abs(db[u]['rating'] - rating_a) < 100]`. -/
noncomputable def proxCandidates (db : DB) (a : String) : List String :=
  (uris db).filter fun u =>
    decide (u ≠ a ∧ |(dbGet db u).rating - (dbGet db a).rating| < 100)

/-- Source `app.py` lines 320-337, the matchmaking block of the `/rank` GET
handler: cold-start tier, single-cold-start tier, calibration tier, then
proximity matching with a fallback. -/
noncomputable def matchmake (db : DB) (r1 r2 : ℕ) : String × String :=
  if 2 ≤ (zeroList db).length then
    randSample2 (zeroList db) r1 r2
  else if (zeroList db).length = 1 then
    ((zeroList db).headI, randChoice (othersList db (zeroList db).headI) r2)
  else if 2 ≤ (calibList db).length then
    randSample2 (calibList db) r1 r2
  else
    let id_a := randChoice (uris db) r1
    if proxCandidates db id_a ≠ [] then
      (id_a, randChoice (proxCandidates db id_a) r2)
    else
      (id_a, randChoice (othersList db id_a) r2)

/-- Error taxonomy of the spec (§7); `app.py` surfaces
`InsufficientItemsError` as the early "Not enough songs!" response. -/
inductive AppError where
  | insufficientItems
  | unknownItem
deriving DecidableEq

/-- `app.py` lines 287-339, the `/rank` GET handler on a loaded database:
fail when fewer than 2 songs, otherwise run the matchmaking block. -/
noncomputable def rank_get (db : DB) (r1 r2 : ℕ) :
    Except AppError (String × String) :=
  if (uris db).length < 2 then Except.error AppError.insufficientItems
  else Except.ok (matchmake db r1 r2)

/-- Concrete two-item set, both never matched. -/
noncomputable def dbTwoZero : DB :=
  [( "a", ⟨ "Song A", "Artist", "", 1000, 0⟩),
   ( "b", ⟨ "Song B", "Artist", "", 1000, 0⟩)]

/-- Concrete two-item set with all items past calibration. -/
noncomputable def dbSeasoned : DB :=
  [( "a", ⟨ "Song A", "Artist", "", 1000, 6⟩),
   ( "b", ⟨ "Song B", "Artist", "", 1050, 9⟩)]

/-- One-item set. -/
noncomputable def dbSingle : DB := [( "a", ⟨ "Song A", "Artist", "", 1000, 0⟩)]

/-- Replies of the POST branch: the AJAX JSON confirmation or the redirect
back to `/rank`. -/
inductive VoteResponse where
  | jsonSuccess (winner_uri : String)
  | redirectRank
deriving DecidableEq

/-- Update of the entry stored under a key, leaving every other entry
(and the key order) unchanged — the building block of the source's
`db[winner][...] = ...` dict item assignments. -/
def updField (db : DB) (v : String) (f : Item → Item) : DB :=
  db.map fun e => if e.1 = v then (e.1, f e.2) else e

/-- Source `app.py` lines 303-310, the four sequential mutations of a validated
vote, in source order: winner rating, winner match count, loser rating,
loser match count (both new ratings come from the single
`calculate_new_ratings` call made before any mutation). -/
noncomputable def applyVoteDB (db : DB) (winner loser : String) : DB :=
  updField (updField (updField (updField db
    winner fun it => { it with rating :=
      (calculate_new_ratings (dbGet db winner).rating (dbGet db loser).rating 1
        (dbGet db winner).matchCount (dbGet db loser).matchCount).1 })
    winner fun it => { it with matchCount := it.matchCount + 1 })
    loser fun it => { it with rating :=
      (calculate_new_ratings (dbGet db winner).rating (dbGet db loser).rating 1
        (dbGet db winner).matchCount (dbGet db loser).matchCount).2 })
    loser fun it => { it with matchCount := it.matchCount + 1 }

/-- Source `app.py` lines 287-317, the `/rank` POST handler for an actual vote
(`winner`/`loser` are the form fields, `""` standing for a missing or
empty one; `ajax` tells whether the `X-Requested-With` header is set):
after the "Not enough songs!" guard, the vote is applied only when both
form fields are truthy and both are keys of the database; otherwise the
handler silently redirects with the database untouched. -/
noncomputable def rank_vote (db : DB) (winner loser : String) (ajax : Bool) :
    Except AppError (DB × VoteResponse) :=
  if (uris db).length < 2 then Except.error AppError.insufficientItems
  else if winner ≠ "" ∧ loser ≠ "" ∧ winner ∈ uris db ∧ loser ∈ uris db then
    Except.ok (applyVoteDB db winner loser,
      if ajax then VoteResponse.jsonSuccess winner else VoteResponse.redirectRank)
  else Except.ok (db, VoteResponse.redirectRank)

/-- The database carried by a non-error handler result (the state that
`save_db` persists); an error leaves no state to persist. -/
def resultDB (r : Except AppError (DB × VoteResponse)) : DB :=
  match r with
  | Except.ok p => p.1
  | Except.error _ => []

/-- One playlist entry as returned by the external catalog: `item['track']`
is `none` for a missing track object, and local tracks are skipped. -/
structure Track where
  uri : String
  name : String
  artist : String
  image : String
  is_local : Bool
deriving DecidableEq

/-- Python's `new_db[uri] = item`: replace the entry in place when the key
exists (keeping its position, as dicts do), otherwise append it. -/
def upsert (db : DB) (u : String) (it : Item) : DB :=
  if (db.find? fun e => decide (e.1 = u)).isSome then
    updField db u fun _ => it
  else db ++ [(u, it)]

/-- Source `app.py` lines 256-275, one iteration of the ingest loop: skip missing
or local tracks; for a known URI copy the old record and refresh only its
`name` and `image`; for a new URI create a record with rating 1000.0 and
match count 0. -/
noncomputable def ingestStep (old : DB) (acc : DB) (otr : Option Track) : DB :=
  match otr with
  | none => acc
  | some tr =>
    if tr.is_local then acc
    else
      match old.find? fun e => decide (e.1 = tr.uri) with
      | some e => upsert acc tr.uri { e.2 with name := tr.name, image := tr.image }
      | none => upsert acc tr.uri ⟨tr.name, tr.artist, tr.image, 1000, 0⟩

/-- Source `app.py` lines 243-277: rebuild the database from the fetched tracks,
starting from `new_db = {}`. -/
noncomputable def ingest_playlist (old : DB) (tracks : List (Option Track)) : DB :=
  tracks.foldl (ingestStep old) []

/-- The URI a fetched entry contributes, if any. -/
def trackKey (otr : Option Track) : Option String :=
  match otr with
  | none => none
  | some tr => if tr.is_local then none else some tr.uri

/-- URIs of the entries the ingest loop does not skip. -/
def validUris (tracks : List (Option Track)) : List String :=
  tracks.filterMap trackKey

/-- Stored database with one song whose recorded artist is Artist X. -/
noncomputable def oldOne : DB :=
  [( "u", ⟨ "Old Name", "Artist X", "old.jpg", 950, 3⟩)]

/-- The re-observed track, now with a different name, artist and image. -/
def trackNew : Track := ⟨ "u", "New Name", "Artist Y", "new.jpg", false⟩

/-- Source `app.py` lines 65-69: keep only the alphanumeric characters of the
playlist id and join the data directory with `<safe_id>.json`
(`Char.isAlphanum` stands for Python's `str.isalnum`; on the path-relevant
ASCII characters — separators, dots, spaces — the two agree, both
rejecting them). -/
def get_db_path (playlist_id : String) : String :=
  "data/" ++ String.mk (playlist_id.data.filter Char.isAlphanum) ++ ".json"

/-! Lemmas and the claim theorems. -/

lemma one_add_rpow_pos (rating_a rating_b : ℝ) :
    (0 : ℝ) < 1 + (10 : ℝ) ^ ((rating_b - rating_a) / 400) := by
  have h := Real.rpow_pos_of_pos (by norm_num : (0:ℝ) < 10) ((rating_b - rating_a) / 400)
  linarith

/-- Claim C1: for all finite ratings `Ra`, `Rb`, all outcome values `S_a`
and all non-negative match counts `mA`, `mB`, `calculate_new_ratings`
returns `(round(Ra + K_a*(S_a - E_a), 2), round(Rb + K_b*((1-S_a) - (1-E_a)), 2))`
with `E_a = 1/(1 + 10^((Rb-Ra)/400))` and `K` chosen per item as 64 when
that item's match count is below 5 and 32 otherwise. -/
theorem calculate_new_ratings_formula (Ra Rb Sa : ℝ) (mA mB : ℕ) :
    calculate_new_ratings Ra Rb Sa mA mB =
      (round2 (Ra + (if mA < 5 then (64 : ℝ) else 32) *
          (Sa - 1 / (1 + (10 : ℝ) ^ ((Rb - Ra) / 400)))),
       round2 (Rb + (if mB < 5 then (64 : ℝ) else 32) *
          ((1 - Sa) - (1 - 1 / (1 + (10 : ℝ) ^ ((Rb - Ra) / 400)))))) := by
  have hk : ∀ m : ℕ, ((get_k_factor m : ℕ) : ℝ) = if m < 5 then (64 : ℝ) else 32 := by
    intro m
    unfold get_k_factor
    split_ifs <;> norm_num
  unfold calculate_new_ratings get_expected_score
  simp only [hk]

lemma calculate_new_ratings_checked_no_overflow (Ra Rb Sa : ℝ) (mA mB : ℕ)
    (h : (10 : ℝ) ^ ((Rb - Ra) / 400) ≤ maxFloat) :
    get_expected_score_checked Ra Rb = some (get_expected_score Ra Rb) ∧
      calculate_new_ratings_checked Ra Rb Sa mA mB =
        some (calculate_new_ratings Ra Rb Sa mA mB) := by
  have hne : (1 + (10 : ℝ) ^ ((Rb - Ra) / 400)) ≠ 0 :=
    ne_of_gt (one_add_rpow_pos Ra Rb)
  have hp : pow10_float ((Rb - Ra) / 400) = some ((10 : ℝ) ^ ((Rb - Ra) / 400)) := by
    unfold pow10_float
    rw [if_neg (not_lt.mpr h)]
  have hexp : get_expected_score_checked Ra Rb = some (get_expected_score Ra Rb) := by
    unfold get_expected_score_checked
    rw [hp]
    dsimp only
    rw [if_neg hne]
    rfl
  refine ⟨hexp, ?_⟩
  unfold calculate_new_ratings_checked
  rw [hexp]
  unfold calculate_new_ratings get_expected_score
  rfl

/-- Claim C8 names a real slip in the code: `10 ** ((Rb - Ra)/400)` in
`elo.py` line 5 is float exponentiation and raises `OverflowError` once
the finite rating gap exceeds about 123,400 points — e.g. at
`Ra = 0.0`, `Rb = 200000.0` the exponent is 500 and `10^500` exceeds the
largest finite double — so the expected-score computation and
`calculate_new_ratings` fail instead of returning a value, although both
the claim and the spec (§7) require every finite input to succeed. -/
theorem calculate_new_ratings_overflow :
    get_expected_score_checked 0 200000 = none ∧
      calculate_new_ratings_checked 0 200000 1 0 0 = none := by
  have harg : (((200000 : ℝ) - 0) / 400) = ((500 : ℕ) : ℝ) := by norm_num
  have hgt : maxFloat < (10 : ℝ) ^ (((500 : ℕ)) : ℝ) := by
    rw [Real.rpow_natCast]
    unfold maxFloat
    norm_num
  have hp : pow10_float (((200000 : ℝ) - 0) / 400) = none := by
    unfold pow10_float
    rw [harg, if_pos hgt]
  constructor
  · unfold get_expected_score_checked
    rw [hp]
  · unfold calculate_new_ratings_checked get_expected_score_checked
    rw [hp]
    rfl

lemma randChoice_mem (l : List String) (r : ℕ) (h : l ≠ []) :
    randChoice l r ∈ l := by
  have hlen : 0 < l.length := List.length_pos.mpr h
  have hr : r % l.length < l.length := Nat.mod_lt _ hlen
  unfold randChoice
  rw [List.getD_eq_getElem?_getD, List.getElem?_eq_getElem hr]
  exact List.getElem_mem hr

lemma randSample2_spec (l : List String) (r1 r2 : ℕ)
    (h2 : 2 ≤ l.length) (hnd : l.Nodup) :
    (randSample2 l r1 r2).1 ∈ l ∧ (randSample2 l r1 r2).2 ∈ l ∧
      (randSample2 l r1 r2).1 ≠ (randSample2 l r1 r2).2 := by
  have hlen : 0 < l.length := by omega
  have hi : r1 % l.length < l.length := Nat.mod_lt _ hlen
  have hfst : (randSample2 l r1 r2).1 = l[r1 % l.length] := by
    unfold randSample2
    rw [List.getD_eq_getElem?_getD, List.getElem?_eq_getElem hi]
    rfl
  have herase : l.eraseIdx (r1 % l.length) ≠ [] := by
    have := List.length_eraseIdx_of_lt hi
    intro hcon
    rw [hcon] at this
    simp at this
    omega
  have hsnd : (randSample2 l r1 r2).2 ∈ l.eraseIdx (r1 % l.length) :=
    randChoice_mem _ _ herase
  obtain ⟨j, hj, hji, hjy⟩ := List.mem_eraseIdx_iff_getElem.mp hsnd
  refine ⟨?_, ?_, ?_⟩
  · rw [hfst]
    exact List.getElem_mem hi
  · exact List.mem_of_mem_eraseIdx hsnd
  · rw [hfst, ← hjy]
    intro hcon
    exact hji ((List.Nodup.getElem_inj_iff hnd).mp hcon.symm)

lemma filter_ne_nonempty (l : List String) (a : String)
    (h2 : 2 ≤ l.length) (hnd : l.Nodup) :
    l.filter (fun u => decide (u ≠ a)) ≠ [] := by
  match l, hnd with
  | x :: y :: t, hnd =>
    have hxy : x ≠ y := by
      intro hcon
      rw [hcon] at hnd
      exact (List.nodup_cons.mp hnd).1 (List.mem_cons_self y t)
    rcases eq_or_ne x a with hxa | hxa
    · apply List.ne_nil_of_mem (a := y)
      refine List.mem_filter.mpr ⟨List.mem_cons_of_mem x (List.mem_cons_self y t), ?_⟩
      simp only [decide_eq_true_eq]
      rw [← hxa]
      exact fun hcon => hxy hcon.symm
    · apply List.ne_nil_of_mem (a := x)
      exact List.mem_filter.mpr ⟨List.mem_cons_self x (y :: t), by
        simp only [decide_eq_true_eq]; exact hxa⟩

lemma mem_othersList (db : DB) (a u : String) (h : u ∈ othersList db a) :
    u ∈ uris db ∧ u ≠ a := by
  have := List.mem_filter.mp h
  exact ⟨this.1, by simpa using this.2⟩

lemma mem_zeroList (db : DB) (u : String) (h : u ∈ zeroList db) :
    u ∈ uris db ∧ (dbGet db u).matchCount = 0 := by
  have := List.mem_filter.mp h
  exact ⟨this.1, by simpa using this.2⟩

lemma mem_calibList (db : DB) (u : String) (h : u ∈ calibList db) :
    u ∈ uris db ∧ (dbGet db u).matchCount < 5 := by
  have := List.mem_filter.mp h
  exact ⟨this.1, by simpa using this.2⟩

lemma mem_proxCandidates (db : DB) (a u : String) (h : u ∈ proxCandidates db a) :
    u ∈ uris db ∧ u ≠ a ∧ |(dbGet db u).rating - (dbGet db a).rating| < 100 := by
  have := List.mem_filter.mp h
  refine ⟨this.1, ?_⟩
  simpa using this.2

lemma uris_length (db : DB) : (uris db).length = db.length := by
  unfold uris
  exact List.length_map db Prod.fst

lemma headI_mem (l : List String) (h : l ≠ []) : l.headI ∈ l := by
  match l with
  | [] => exact absurd rfl h
  | z :: t => exact List.mem_cons_self z t

lemma matchmake_tier1 (db : DB) (r1 r2 : ℕ) (h : 2 ≤ (zeroList db).length) :
    matchmake db r1 r2 = randSample2 (zeroList db) r1 r2 := by
  unfold matchmake
  rw [if_pos h]

lemma matchmake_tier2 (db : DB) (r1 r2 : ℕ) (h : (zeroList db).length = 1) :
    matchmake db r1 r2 =
      ((zeroList db).headI, randChoice (othersList db (zeroList db).headI) r2) := by
  unfold matchmake
  rw [if_neg (by omega), if_pos h]

lemma matchmake_tier3 (db : DB) (r1 r2 : ℕ) (hz : (zeroList db).length = 0)
    (hc : 2 ≤ (calibList db).length) :
    matchmake db r1 r2 = randSample2 (calibList db) r1 r2 := by
  unfold matchmake
  rw [if_neg (by omega), if_neg (by omega), if_pos hc]

lemma matchmake_tier4 (db : DB) (r1 r2 : ℕ) (hz : (zeroList db).length = 0)
    (hc : (calibList db).length < 2) :
    matchmake db r1 r2 =
      if proxCandidates db (randChoice (uris db) r1) ≠ [] then
        (randChoice (uris db) r1,
          randChoice (proxCandidates db (randChoice (uris db) r1)) r2)
      else
        (randChoice (uris db) r1,
          randChoice (othersList db (randChoice (uris db) r1)) r2) := by
  unfold matchmake
  rw [if_neg (by omega), if_neg (by omega), if_neg (by omega)]

lemma uris_ne_nil (db : DB) (h2 : 2 ≤ db.length) : uris db ≠ [] := by
  intro hcon
  have := uris_length db
  rw [hcon] at this
  simp at this
  omega

/-- Claim C6: for every item set with at least 2 items and every choice of
the random source, the matchmaking block returns two distinct identities
present in the set; it never returns the same identity twice. -/
theorem selectPair_distinct_in_set (db : DB) (r1 r2 : ℕ)
    (h2 : 2 ≤ db.length) (hnd : (uris db).Nodup) :
    (matchmake db r1 r2).1 ∈ uris db ∧ (matchmake db r1 r2).2 ∈ uris db ∧
      (matchmake db r1 r2).1 ≠ (matchmake db r1 r2).2 := by
  have h2u : 2 ≤ (uris db).length := by
    rw [uris_length]
    exact h2
  by_cases hz2 : 2 ≤ (zeroList db).length
  · rw [matchmake_tier1 db r1 r2 hz2]
    have hs := randSample2_spec (zeroList db) r1 r2 hz2 (hnd.filter _)
    exact ⟨(mem_zeroList db _ hs.1).1, (mem_zeroList db _ hs.2.1).1, hs.2.2⟩
  · by_cases hz1 : (zeroList db).length = 1
    · rw [matchmake_tier2 db r1 r2 hz1]
      have hne : zeroList db ≠ [] := by
        intro hcon
        rw [hcon] at hz1
        simp at hz1
      have hmem1 : (zeroList db).headI ∈ uris db :=
        (mem_zeroList db _ (headI_mem _ hne)).1
      have hon : othersList db (zeroList db).headI ≠ [] :=
        filter_ne_nonempty (uris db) _ h2u hnd
      have hmem2 := mem_othersList db _ _ (randChoice_mem _ r2 hon)
      exact ⟨hmem1, hmem2.1, fun hcon => hmem2.2 hcon.symm⟩
    · by_cases hc2 : 2 ≤ (calibList db).length
      · rw [matchmake_tier3 db r1 r2 (by omega) hc2]
        have hs := randSample2_spec (calibList db) r1 r2 hc2 (hnd.filter _)
        exact ⟨(mem_calibList db _ hs.1).1, (mem_calibList db _ hs.2.1).1, hs.2.2⟩
      · rw [matchmake_tier4 db r1 r2 (by omega) (by omega)]
        have hu : uris db ≠ [] := uris_ne_nil db h2
        have ha : randChoice (uris db) r1 ∈ uris db := randChoice_mem _ r1 hu
        by_cases hcand : proxCandidates db (randChoice (uris db) r1) = []
        · rw [if_neg (fun hcon => hcon hcand)]
          have hon : othersList db (randChoice (uris db) r1) ≠ [] :=
            filter_ne_nonempty (uris db) _ h2u hnd
          have hmem2 := mem_othersList db _ _ (randChoice_mem _ r2 hon)
          exact ⟨ha, hmem2.1, fun hcon => hmem2.2 hcon.symm⟩
        · rw [if_pos hcand]
          have hmem2 := mem_proxCandidates db _ _ (randChoice_mem _ r2 hcand)
          exact ⟨ha, hmem2.1, fun hcon => hmem2.2.1 hcon.symm⟩

theorem selectPair_distinct_in_set_witness :
    2 ≤ dbTwoZero.length ∧ (uris dbTwoZero).Nodup ∧
      ((matchmake dbTwoZero 0 1).1 ∈ uris dbTwoZero ∧
        (matchmake dbTwoZero 0 1).2 ∈ uris dbTwoZero ∧
        (matchmake dbTwoZero 0 1).1 ≠ (matchmake dbTwoZero 0 1).2) :=
  ⟨by decide, by decide,
    selectPair_distinct_in_set dbTwoZero 0 1 (by decide) (by decide)⟩

/-- Claim C2: the selection tiers are evaluated in strict order.  With at
least two zero-match items the returned pair consists of two distinct
zero-match items; with exactly one zero-match item that item is the first
of the pair and the second comes from the remaining items; with no
zero-match item and at least two calibration items (`matchCount < 5`) both
returned items are calibration items. -/
theorem selectPair_tier_order (db : DB) (r1 r2 : ℕ)
    (h2 : 2 ≤ db.length) (hnd : (uris db).Nodup) :
    (2 ≤ (zeroList db).length →
      (matchmake db r1 r2).1 ∈ zeroList db ∧
        (matchmake db r1 r2).2 ∈ zeroList db ∧
        (matchmake db r1 r2).1 ≠ (matchmake db r1 r2).2) ∧
    ((zeroList db).length = 1 →
      (matchmake db r1 r2).1 ∈ zeroList db ∧
        (matchmake db r1 r2).2 ∈ uris db ∧
        (matchmake db r1 r2).2 ≠ (matchmake db r1 r2).1) ∧
    ((zeroList db).length = 0 → 2 ≤ (calibList db).length →
      (matchmake db r1 r2).1 ∈ calibList db ∧
        (matchmake db r1 r2).2 ∈ calibList db) := by
  have h2u : 2 ≤ (uris db).length := by
    rw [uris_length]
    exact h2
  refine ⟨fun hz2 => ?_, fun hz1 => ?_, fun hz0 hc2 => ?_⟩
  · rw [matchmake_tier1 db r1 r2 hz2]
    exact randSample2_spec (zeroList db) r1 r2 hz2 (hnd.filter _)
  · rw [matchmake_tier2 db r1 r2 hz1]
    have hne : zeroList db ≠ [] := by
      intro hcon
      rw [hcon] at hz1
      simp at hz1
    have hon : othersList db (zeroList db).headI ≠ [] :=
      filter_ne_nonempty (uris db) _ h2u hnd
    have hmem2 := mem_othersList db _ _ (randChoice_mem _ r2 hon)
    exact ⟨headI_mem _ hne, hmem2.1, hmem2.2⟩
  · rw [matchmake_tier3 db r1 r2 hz0 hc2]
    have hs := randSample2_spec (calibList db) r1 r2 hc2 (hnd.filter _)
    exact ⟨hs.1, hs.2.1⟩

theorem selectPair_tier_order_witness :
    2 ≤ dbTwoZero.length ∧ (uris dbTwoZero).Nodup ∧ 2 ≤ (zeroList dbTwoZero).length ∧
      ((matchmake dbTwoZero 0 1).1 ∈ zeroList dbTwoZero ∧
        (matchmake dbTwoZero 0 1).2 ∈ zeroList dbTwoZero ∧
        (matchmake dbTwoZero 0 1).1 ≠ (matchmake dbTwoZero 0 1).2) :=
  ⟨by decide, by decide, by decide,
    (selectPair_tier_order dbTwoZero 0 1 (by decide) (by decide)).1 (by decide)⟩

/-- Claim C3: with no zero-match item and fewer than two calibration
items, the first item A is drawn from the whole set; when some other item
lies within 100 rating points of A the second item B is such an item, and
only when no such candidate exists is B drawn from all items except A. -/
theorem selectPair_proximity (db : DB) (r1 r2 : ℕ)
    (h2 : 2 ≤ db.length) (hnd : (uris db).Nodup)
    (hz : zeroList db = []) (hc : (calibList db).length < 2) :
    (matchmake db r1 r2).1 ∈ uris db ∧
      (proxCandidates db (matchmake db r1 r2).1 ≠ [] →
        (matchmake db r1 r2).2 ∈ proxCandidates db (matchmake db r1 r2).1) ∧
      (proxCandidates db (matchmake db r1 r2).1 = [] →
        (matchmake db r1 r2).2 ∈ uris db ∧
          (matchmake db r1 r2).2 ≠ (matchmake db r1 r2).1) := by
  have h2u : 2 ≤ (uris db).length := by
    rw [uris_length]
    exact h2
  have hz0 : (zeroList db).length = 0 := by
    rw [hz]
    rfl
  rw [matchmake_tier4 db r1 r2 hz0 hc]
  have hu : uris db ≠ [] := uris_ne_nil db h2
  have ha : randChoice (uris db) r1 ∈ uris db := randChoice_mem _ r1 hu
  by_cases hcand : proxCandidates db (randChoice (uris db) r1) = []
  · rw [if_neg (fun hcon => hcon hcand)]
    have hon : othersList db (randChoice (uris db) r1) ≠ [] :=
      filter_ne_nonempty (uris db) _ h2u hnd
    have hmem2 := mem_othersList db _ _ (randChoice_mem _ r2 hon)
    exact ⟨ha, fun hcon => absurd hcand hcon, fun _ => ⟨hmem2.1, hmem2.2⟩⟩
  · rw [if_pos hcand]
    refine ⟨ha, fun _ => randChoice_mem _ r2 hcand, fun hcon => absurd hcon hcand⟩

theorem selectPair_proximity_witness :
    2 ≤ dbSeasoned.length ∧ (uris dbSeasoned).Nodup ∧
      zeroList dbSeasoned = [] ∧ (calibList dbSeasoned).length < 2 ∧
      ((matchmake dbSeasoned 0 1).1 ∈ uris dbSeasoned ∧
        (proxCandidates dbSeasoned (matchmake dbSeasoned 0 1).1 ≠ [] →
          (matchmake dbSeasoned 0 1).2 ∈
            proxCandidates dbSeasoned (matchmake dbSeasoned 0 1).1) ∧
        (proxCandidates dbSeasoned (matchmake dbSeasoned 0 1).1 = [] →
          (matchmake dbSeasoned 0 1).2 ∈ uris dbSeasoned ∧
            (matchmake dbSeasoned 0 1).2 ≠ (matchmake dbSeasoned 0 1).1)) :=
  ⟨by decide, by decide, by decide, by decide,
    selectPair_proximity dbSeasoned 0 1 (by decide) (by decide) (by decide) (by decide)⟩

/-- Claim C5: invoking the matchmaker on a set with fewer than 2 items
fails with the insufficient-items error (the "Not enough songs!" early
return of `app.py` lines 290-291) without selecting any pair. -/
theorem selectPair_insufficient (db : DB) (r1 r2 : ℕ) (h : db.length < 2) :
    rank_get db r1 r2 = Except.error AppError.insufficientItems := by
  unfold rank_get
  rw [if_pos (by rw [uris_length]; exact h)]

theorem selectPair_insufficient_witness :
    dbSingle.length < 2 ∧
      rank_get dbSingle 0 1 = Except.error AppError.insufficientItems :=
  ⟨by decide, selectPair_insufficient dbSingle 0 1 (by decide)⟩

lemma find?_updField (db : DB) (v u : String) (f : Item → Item) :
    ((updField db v f).find? fun e => decide (e.1 = u)) =
      ((db.find? fun e => decide (e.1 = u)).map
        fun e => if e.1 = v then (e.1, f e.2) else e) := by
  unfold updField
  rw [List.find?_map]
  have hp : ((fun e => decide (e.1 = u)) ∘
      fun e : String × Item => if e.1 = v then (e.1, f e.2) else e) =
        fun e : String × Item => decide (e.1 = u) := by
    funext e
    by_cases h : e.1 = v
    · rw [Function.comp_apply, if_pos h]
    · rw [Function.comp_apply, if_neg h]
  rw [hp]

lemma dbGet_updField_ne (db : DB) (v u : String) (f : Item → Item) (h : u ≠ v) :
    dbGet (updField db v f) u = dbGet db u := by
  unfold dbGet
  rw [find?_updField]
  cases hf : db.find? fun e => decide (e.1 = u) with
  | none => rfl
  | some e =>
    have he : e.1 = u := by simpa using List.find?_some hf
    rw [Option.map_some']
    rw [if_neg (by rw [he]; exact h)]

lemma dbGet_updField_self (db : DB) (u : String) (f : Item → Item)
    (h : u ∈ uris db) :
    dbGet (updField db u f) u = f (dbGet db u) := by
  have hsome : ((db.find? fun e => decide (e.1 = u)).isSome) := by
    rw [List.find?_isSome]
    obtain ⟨e, he, hfst⟩ := List.mem_map.mp h
    exact ⟨e, he, by simpa using hfst⟩
  unfold dbGet
  rw [find?_updField]
  cases hf : db.find? fun e => decide (e.1 = u) with
  | none =>
    rw [hf] at hsome
    simp at hsome
  | some e =>
    have he : e.1 = u := by simpa using List.find?_some hf
    rw [Option.map_some', if_pos he]
    rfl

lemma uris_updField (db : DB) (v : String) (f : Item → Item) :
    uris (updField db v f) = uris db := by
  unfold uris updField
  rw [List.map_map]
  apply List.map_congr_left
  intro e _
  by_cases h : e.1 = v
  · simp [h]
  · simp [h]

lemma applyVoteDB_get_other (db : DB) (w l u : String)
    (hu1 : u ≠ w) (hu2 : u ≠ l) :
    dbGet (applyVoteDB db w l) u = dbGet db u := by
  unfold applyVoteDB
  rw [dbGet_updField_ne _ _ _ _ hu2, dbGet_updField_ne _ _ _ _ hu2,
    dbGet_updField_ne _ _ _ _ hu1, dbGet_updField_ne _ _ _ _ hu1]

lemma applyVoteDB_get_winner (db : DB) (w l : String)
    (hw : w ∈ uris db) (hne : w ≠ l) :
    dbGet (applyVoteDB db w l) w =
      { dbGet db w with
        rating := (calculate_new_ratings (dbGet db w).rating (dbGet db l).rating 1
          (dbGet db w).matchCount (dbGet db l).matchCount).1,
        matchCount := (dbGet db w).matchCount + 1 } := by
  unfold applyVoteDB
  rw [dbGet_updField_ne _ _ _ _ hne, dbGet_updField_ne _ _ _ _ hne,
    dbGet_updField_self _ _ _ (by rw [uris_updField]; exact hw),
    dbGet_updField_self _ _ _ hw]

lemma applyVoteDB_get_loser (db : DB) (w l : String)
    (hl : l ∈ uris db) (hne : w ≠ l) :
    dbGet (applyVoteDB db w l) l =
      { dbGet db l with
        rating := (calculate_new_ratings (dbGet db w).rating (dbGet db l).rating 1
          (dbGet db w).matchCount (dbGet db l).matchCount).2,
        matchCount := (dbGet db l).matchCount + 1 } := by
  unfold applyVoteDB
  rw [dbGet_updField_self _ _ _
      (by rw [uris_updField, uris_updField, uris_updField]; exact hl),
    dbGet_updField_self _ _ _ (by rw [uris_updField, uris_updField]; exact hl),
    dbGet_updField_ne _ _ _ _ (Ne.symm hne), dbGet_updField_ne _ _ _ _ (Ne.symm hne)]

/-- Claim C4's counterexample: voting with a loser identity absent from
the set does not fail with any error — the handler answers with the same
redirect as a successful non-AJAX vote, leaving the database unchanged. -/
theorem vote_unknown_id_no_error :
    ( "c" ∉ uris dbTwoZero) ∧
      rank_vote dbTwoZero "a" "c" false =
        Except.ok (dbTwoZero, VoteResponse.redirectRank) ∧
      rank_vote dbTwoZero "a" "c" false ≠ Except.error AppError.unknownItem := by
  have h : rank_vote dbTwoZero "a" "c" false =
      Except.ok (dbTwoZero, VoteResponse.redirectRank) := by
    unfold rank_vote
    rw [if_neg (by decide), if_neg (by decide)]
  exact ⟨by decide, h, by rw [h]; exact fun hcon => Except.noConfusion hcon⟩

/-- Claim C4 as amended: if either identity is absent from a set of at
least 2 items, the vote is silently ignored — the handler redirects
without raising any error and every item's rating and match count is
exactly as it was before the call (the returned state is the input state,
so no partial mutation is applied). -/
theorem vote_unknown_id_ignored (db : DB) (w l : String) (ajax : Bool)
    (h2 : 2 ≤ db.length) (habs : w ∉ uris db ∨ l ∉ uris db) :
    rank_vote db w l ajax = Except.ok (db, VoteResponse.redirectRank) := by
  have hg : ¬(w ≠ "" ∧ l ≠ "" ∧ w ∈ uris db ∧ l ∈ uris db) := by
    rintro ⟨-, -, hw, hl⟩
    rcases habs with h | h
    · exact h hw
    · exact h hl
  unfold rank_vote
  rw [if_neg (by rw [uris_length]; omega), if_neg hg]

theorem vote_unknown_id_ignored_witness :
    2 ≤ dbTwoZero.length ∧ ( "c" ∉ uris dbTwoZero) ∧
      rank_vote dbTwoZero "a" "c" true =
        Except.ok (dbTwoZero, VoteResponse.redirectRank) :=
  ⟨by decide, by decide,
    vote_unknown_id_ignored dbTwoZero "a" "c" true (by decide) (Or.inr (by decide))⟩

/-- Claim C7's counterexample: the handler never compares `winner` with
`loser`, so a vote naming the same present identity twice mutates that
single item's match count twice in one call (from 0 to 2). -/
theorem vote_self_double_mutation :
    ( "a" ∈ uris dbTwoZero) ∧ (dbGet dbTwoZero "a").matchCount = 0 ∧
      (dbGet (resultDB (rank_vote dbTwoZero "a" "a" false)) "a").matchCount = 2 := by
  refine ⟨by decide, by decide, ?_⟩
  have h : resultDB (rank_vote dbTwoZero "a" "a" false) =
      applyVoteDB dbTwoZero "a" "a" := by
    unfold rank_vote
    rw [if_neg (by decide), if_pos (by decide)]
    rfl
  rw [h]
  unfold applyVoteDB
  rw [dbGet_updField_self _ _ _
      (by rw [uris_updField, uris_updField, uris_updField]; decide),
    dbGet_updField_self _ _ _ (by rw [uris_updField, uris_updField]; decide),
    dbGet_updField_self _ _ _ (by rw [uris_updField]; decide),
    dbGet_updField_self _ _ _ (by decide)]
  decide

/-- Claim C7 as amended: for a vote naming two distinct, truthy identities
both present in a set of at least 2 items, the persisted state updates the
winner's and loser's entries exactly once each — rating and match count
together, the rating from the single `calculate_new_ratings` call and the
match count incremented by exactly 1, all other fields untouched — and
every item not named in the outcome is exactly unchanged. -/
theorem vote_mutates_only_participants (db : DB) (w l : String) (ajax : Bool)
    (h2 : 2 ≤ db.length) (hw0 : w ≠ "") (hl0 : l ≠ "")
    (hw : w ∈ uris db) (hl : l ∈ uris db) (hne : w ≠ l) :
    dbGet (resultDB (rank_vote db w l ajax)) w =
      { dbGet db w with
        rating := (calculate_new_ratings (dbGet db w).rating (dbGet db l).rating 1
          (dbGet db w).matchCount (dbGet db l).matchCount).1,
        matchCount := (dbGet db w).matchCount + 1 } ∧
    dbGet (resultDB (rank_vote db w l ajax)) l =
      { dbGet db l with
        rating := (calculate_new_ratings (dbGet db w).rating (dbGet db l).rating 1
          (dbGet db w).matchCount (dbGet db l).matchCount).2,
        matchCount := (dbGet db l).matchCount + 1 } ∧
    ∀ u : String, u ≠ w → u ≠ l →
      dbGet (resultDB (rank_vote db w l ajax)) u = dbGet db u := by
  have hres : resultDB (rank_vote db w l ajax) = applyVoteDB db w l := by
    unfold rank_vote
    rw [if_neg (by rw [uris_length]; omega), if_pos ⟨hw0, hl0, hw, hl⟩]
    cases ajax <;> rfl
  rw [hres]
  exact ⟨applyVoteDB_get_winner db w l hw hne,
    applyVoteDB_get_loser db w l hl hne,
    fun u hu1 hu2 => applyVoteDB_get_other db w l u hu1 hu2⟩

theorem vote_mutates_only_participants_witness :
    2 ≤ dbTwoZero.length ∧ ( "a" : String) ≠ "b" ∧
      (dbGet (resultDB (rank_vote dbTwoZero "a" "b" false)) "a").matchCount =
        (dbGet dbTwoZero "a").matchCount + 1 := by
  refine ⟨by decide, by decide, ?_⟩
  have h := vote_mutates_only_participants dbTwoZero "a" "b" false (by decide)
    (by decide) (by decide) (by decide) (by decide) (by decide)
  rw [h.1]

lemma dbGet_upsert_ne (db : DB) (v u : String) (it : Item) (h : u ≠ v) :
    dbGet (upsert db v it) u = dbGet db u := by
  unfold upsert
  split_ifs with hs
  · exact dbGet_updField_ne db v u _ h
  · unfold dbGet
    rw [List.find?_append]
    cases hf : db.find? fun e => decide (e.1 = u) with
    | some e => rfl
    | none =>
      rw [Option.none_or]
      have hvu : ¬(v = u) := fun hcon => h hcon.symm
      simp [List.find?_cons, hvu]

lemma dbGet_upsert_self (db : DB) (v : String) (it : Item) :
    dbGet (upsert db v it) v = it := by
  unfold upsert
  split_ifs with hs
  · obtain ⟨e, he, hp⟩ := List.find?_isSome.mp hs
    have hv : v ∈ uris db :=
      List.mem_map.mpr ⟨e, he, by simpa using hp⟩
    rw [dbGet_updField_self db v _ hv]
  · have hf : (db.find? fun e => decide (e.1 = v)) = none := by
      cases hx : db.find? fun e => decide (e.1 = v) with
      | none => rfl
      | some e => rw [hx] at hs; simp at hs
    unfold dbGet
    rw [List.find?_append, hf, Option.none_or]
    simp [List.find?_cons]

lemma ingest_untouched (old : DB) (ts : List (Option Track)) :
    ∀ (acc : DB) (u : String), u ∉ validUris ts →
      dbGet (ts.foldl (ingestStep old) acc) u = dbGet acc u := by
  induction ts with
  | nil => intro acc u _; rfl
  | cons o ts ih =>
    intro acc u hu
    rw [List.foldl_cons]
    match o with
    | none => exact ih acc u (by simpa [validUris, trackKey] using hu)
    | some tr =>
      by_cases hL : tr.is_local
      · have hstep : ingestStep old acc (some tr) = acc := by
          simp [ingestStep, hL]
        rw [hstep]
        exact ih acc u (by simpa [validUris, trackKey, hL] using hu)
      · have hvu : validUris (some tr :: ts) = tr.uri :: validUris ts := by
          unfold validUris
          rw [List.filterMap_cons]
          simp [trackKey, hL]
        rw [hvu] at hu
        have hu1 : u ≠ tr.uri := fun hcon => hu (hcon ▸ List.mem_cons_self _ _)
        have hu2 : u ∉ validUris ts := fun hcon => hu (List.mem_cons_of_mem _ hcon)
        have hstep : dbGet (ingestStep old acc (some tr)) u = dbGet acc u := by
          simp only [ingestStep]
          rw [if_neg hL]
          cases old.find? fun e => decide (e.1 = tr.uri) with
          | some e => exact dbGet_upsert_ne acc tr.uri u _ hu1
          | none => exact dbGet_upsert_ne acc tr.uri u _ hu1
        rw [ih (ingestStep old acc (some tr)) u hu2, hstep]

lemma ingest_tracked (old : DB) (ts : List (Option Track)) :
    ∀ (acc : DB) (tr : Track), some tr ∈ ts → tr.is_local = false →
      (validUris ts).Nodup →
      dbGet (ts.foldl (ingestStep old) acc) tr.uri =
        (match old.find? fun e => decide (e.1 = tr.uri) with
          | some e => { e.2 with name := tr.name, image := tr.image }
          | none => ⟨tr.name, tr.artist, tr.image, 1000, 0⟩) := by
  induction ts with
  | nil => intro acc tr hmem; exact absurd hmem (List.not_mem_nil _)
  | cons o ts ih =>
    intro acc tr hmem hloc hnd
    rw [List.foldl_cons]
    rcases List.mem_cons.mp hmem with heq | htail
    · subst heq
      have hvu : validUris (some tr :: ts) = tr.uri :: validUris ts := by
        unfold validUris
        rw [List.filterMap_cons]
        simp [trackKey, hloc]
      rw [hvu] at hnd
      have hnotin : tr.uri ∉ validUris ts := (List.nodup_cons.mp hnd).1
      rw [ingest_untouched old ts _ tr.uri hnotin]
      simp only [ingestStep]
      rw [if_neg (by rw [hloc]; exact Bool.false_ne_true)]
      cases old.find? fun e => decide (e.1 = tr.uri) with
      | some e => exact dbGet_upsert_self acc tr.uri _
      | none => exact dbGet_upsert_self acc tr.uri _
    · have hnd2 : (validUris ts).Nodup := by
        unfold validUris at hnd ⊢
        rw [List.filterMap_cons] at hnd
        cases htk : trackKey o with
        | none => rw [htk] at hnd; exact hnd
        | some u => rw [htk] at hnd; exact (List.nodup_cons.mp hnd).2
      exact ih (ingestStep old acc o) tr htail hloc hnd2

/-- Claim C9's counterexample: re-observing a stored URI refreshes its
name but keeps the stored artist, even though the source now reports a
different artist — the display metadata is not fully refreshed. -/
theorem ingest_keeps_stale_artist :
    trackNew.artist = "Artist Y" ∧
      (dbGet oldOne "u").artist = "Artist X" ∧
      (dbGet (ingest_playlist oldOne [some trackNew]) "u").name = "New Name" ∧
      (dbGet (ingest_playlist oldOne [some trackNew]) "u").artist = "Artist X" := by
  refine ⟨rfl, rfl, ?_, ?_⟩ <;> decide

/-- Claim C9 as amended: for every non-local fetched track (under unique
fetched URIs), a URI already stored keeps its rating, match count — and
artist — exactly unchanged while its name and image are refreshed from
the source, and a URI not previously stored is initialized with the
fetched metadata, rating 1000.0 and match count 0. -/
theorem ingest_preserves_ratings (old : DB) (tracks : List (Option Track))
    (tr : Track) (hmem : some tr ∈ tracks) (hloc : tr.is_local = false)
    (hnd : (validUris tracks).Nodup) :
    (tr.uri ∈ uris old →
      dbGet (ingest_playlist old tracks) tr.uri =
        { dbGet old tr.uri with name := tr.name, image := tr.image }) ∧
    (tr.uri ∉ uris old →
      dbGet (ingest_playlist old tracks) tr.uri =
        ⟨tr.name, tr.artist, tr.image, 1000, 0⟩) := by
  have h := ingest_tracked old tracks [] tr hmem hloc hnd
  constructor
  · intro hin
    have hs : ((old.find? fun e => decide (e.1 = tr.uri)).isSome) := by
      rw [List.find?_isSome]
      obtain ⟨e, he, hfst⟩ := List.mem_map.mp hin
      exact ⟨e, he, by simpa using hfst⟩
    cases hfind : old.find? fun e => decide (e.1 = tr.uri) with
    | none => rw [hfind] at hs; simp at hs
    | some e =>
      rw [hfind] at h
      have he2 : dbGet old tr.uri = e.2 := by
        unfold dbGet
        rw [hfind]
        rfl
      unfold ingest_playlist
      rw [h, he2]
  · intro hout
    have hfind : (old.find? fun e => decide (e.1 = tr.uri)) = none := by
      rw [List.find?_eq_none]
      intro e he
      simp only [decide_eq_true_eq]
      intro hcon
      exact hout (List.mem_map.mpr ⟨e, he, hcon⟩)
    rw [hfind] at h
    unfold ingest_playlist
    rw [h]

theorem ingest_preserves_ratings_witness :
    some trackNew ∈ [some trackNew] ∧ trackNew.is_local = false ∧
      (validUris [some trackNew]).Nodup ∧ trackNew.uri ∈ uris oldOne ∧
      dbGet (ingest_playlist oldOne [some trackNew]) trackNew.uri =
        { dbGet oldOne trackNew.uri with
          name := trackNew.name, image := trackNew.image } :=
  ⟨by decide, by decide, by decide, by decide,
    (ingest_preserves_ratings oldOne [some trackNew] trackNew
      (by decide) (by decide) (by decide)).1 (by decide)⟩

/-- Claim C10: for every input, `get_db_path` joins the data directory
with a filename made of exactly the alphanumeric characters of the input
followed by `.json`; the sanitized part therefore contains no path
separator (`/` or `\`) and no dot, so no parent-directory component from
the input survives and the path cannot escape the data directory. -/
theorem get_db_path_sanitized (playlist_id : String) :
    get_db_path playlist_id =
      "data/" ++ String.mk (playlist_id.data.filter Char.isAlphanum) ++ ".json" ∧
    ∀ c, c ∈ playlist_id.data.filter Char.isAlphanum →
      c ≠ '/' ∧ c ≠ '\\' ∧ c ≠ '.' := by
  refine ⟨rfl, fun c hc => ?_⟩
  have halnum : Char.isAlphanum c = true := (List.mem_filter.mp hc).2
  refine ⟨?_, ?_, ?_⟩ <;>
    { intro hcon
      rw [hcon] at halnum
      exact absurd halnum (by decide) }

theorem get_db_path_sanitized_witness :
    get_db_path "abc/../x y!" = "data/abcxy.json" ∧
      (( 'a' ∈ ("abc/../x y!" : String).data.filter Char.isAlphanum) →
        ( 'a' : Char) ≠ '/' ∧ ( 'a' : Char) ≠ '\\' ∧ ( 'a' : Char) ≠ '.') := by
  constructor
  · rw [(get_db_path_sanitized "abc/../x y!").1]
    decide
  · exact fun h => (get_db_path_sanitized "abc/../x y!").2 'a' h
